import Mathlib

/-!
Shallow embedding of the user CRUD service of `src/v1/routes/user.py`
(FastAPI routes `signup`, `get_all_users`, `get_user`, `update_user`,
`delete_user`) over an explicit relational store.

External collaborators (the SQLAlchemy storage gateway, the pydantic
schemas `CreateUser`/`UserOut` in `core/`, and the Fernet cipher) are
modelled from the specification where their code is not part of
`src/`; each such definition carries a doc comment saying so.
Timestamps are modelled as naturals, byte strings as `String`.
-/

deriving instance DecidableEq for Except

namespace UserApi

/-- Modelled from the spec: the request body schema `CreateUser`
(`core/schemas/user.py`, not under `src/`): the four required fields
`first_name`, `last_name`, `email`, `password`.  `signup` also reuses
this shape for the dict it inserts (with `password` re-bound to the
encrypted value). -/
structure CreateUser where
  first_name : String
  last_name : String
  email : String
  password : String
deriving Repr, DecidableEq

/-- A row of the `users` table: the surrogate integer primary key, the
four body fields (password stored encrypted) and the two timestamps
(`created_at`, `updated_at`), modelled as naturals. -/
structure UserRow where
  id : Nat
  first_name : String
  last_name : String
  email : String
  password : String
  created_at : Nat
  updated_at : Nat
deriving Repr, DecidableEq

/-- Modelled from the spec: the public response schema `UserOut`
(`core/schemas/user.py`, not under `src/`): the full record minus the
password field.  Every route declares `response_model=UserOut` (or a
list thereof), so returned rows are projected through this shape. -/
structure UserOut where
  id : Nat
  first_name : String
  last_name : String
  email : String
  created_at : Nat
  updated_at : Nat
deriving Repr, DecidableEq

/-- The serialized form of a `UserOut` response body: field names paired
with rendered values.  Used to state that `password` is not among the
keys of any response. -/
def UserOut.toPairs (u : UserOut) : List (String × String) :=
  [("id", toString u.id),
   ("first_name", u.first_name),
   ("last_name", u.last_name),
   ("email", u.email),
   ("created_at", toString u.created_at),
   ("updated_at", toString u.updated_at)]

/-- Projection of a table row to the public record (`response_model=UserOut`):
all fields except `password`. -/
def toUserOut (r : UserRow) : UserOut :=
  ⟨r.id, r.first_name, r.last_name, r.email, r.created_at, r.updated_at⟩

/-- `fastapi.HTTPException(status_code, detail)` as raised by the routes. -/
structure HTTPException where
  status_code : Nat
  detail : String
deriving Repr, DecidableEq

/-- An exception escaping a route body: either an `HTTPException` raised
deliberately, or a `sqlalchemy.exc.IntegrityError` (carrying its string
rendering `str(e)`) that the route did not catch. -/
inductive Exn where
  | http (e : HTTPException)
  | integrityError (msg : String)
deriving Repr, DecidableEq

/-- Modelled from the spec: the process-lifetime secret
(`key = Fernet.generate_key()`, line 22), generated once at import time.
Its value is irrelevant to every property proved here. -/
def fernetKey : Nat := 0

/-- Modelled from the spec: the external Cipher collaborator
(`cryptography.fernet.Fernet`, line 23) — a keyed symmetric encryption
of the password bytes.  Modelled as a concrete injective keyed encoding
producing a non-empty token; the real Fernet token additionally embeds
a per-call random IV and timestamp, which this pure model cannot
represent (see the notes on the determinism claim). -/
def fernetEncrypt (k : Nat) (plaintext : String) : String :=
  "gAAAA." ++ toString k ++ "." ++ plaintext

/-- `leadsWith n l` holds when the character list `n` is an initial
segment of `l`. -/
def leadsWith : List Char → List Char → Bool
  | [], _ => true
  | _ :: _, [] => false
  | a :: n, b :: l => a == b && leadsWith n l

/-- `hasRun n l` holds when `n` occurs as a contiguous run inside `l`. -/
def hasRun (n : List Char) : List Char → Bool
  | [] => n.isEmpty
  | c :: l => leadsWith n (c :: l) || hasRun n l

/-- Boolean substring test, standing in for Python's `needle in str(e)`. -/
def strOccurs (hay needle : String) : Bool :=
  hasRun needle.toList hay.toList

/-- Modelled from the spec: the string rendering of the MySQL/SQLAlchemy
`IntegrityError` raised on a violation of the unique constraint on
`users.email` — the Storage Gateway's "distinguishable error on
uniqueness violations".  It contains the two substrings `update_user`
matches on: `Duplicate entry` and `users.email`. -/
def dupEmailMsg (email : String) : String :=
  "(1062, " ++ "Duplicate entry" ++ " " ++ email ++ " for key " ++ "users.email" ++ ")"

/-- The database state: the rows of the `users` table in storage order,
plus the auto-increment counter for the surrogate primary key. -/
structure DB where
  rows : List UserRow
  nextId : Nat
deriving Repr, DecidableEq

def emptyDB : DB := ⟨[], 1⟩

/-- Modelled from the spec: the Storage Gateway `insert` against the
`users` table (`core/models/user.py` / `core/config/db.py`, not under
`src/`): assigns the auto-increment id, sets the column defaults
`created_at = updated_at = now`, and raises `IntegrityError` when the
unique constraint on `email` is violated. -/
def dbInsert (db : DB) (now : Nat) (u : CreateUser) : Except String DB :=
  if db.rows.any (fun r => r.email == u.email) then
    Except.error (dupEmailMsg u.email)
  else
    Except.ok ⟨db.rows ++
       [⟨db.nextId, u.first_name, u.last_name, u.email, u.password, now, now⟩],
      db.nextId + 1⟩

/-- `users.select().where(users.columns.email == email)` followed by
`.fetchone()`: the first row with that email, if any. -/
def dbSelectByEmail (db : DB) (email : String) : Option UserRow :=
  db.rows.find? (fun r => r.email == email)

/-- `users.select().where(users.c.id == id)` followed by `.fetchone()`:
the first row with that id, if any. -/
def dbSelectById (db : DB) (id : Nat) : Option UserRow :=
  db.rows.find? (fun r => r.id == id)

/-- Modelled from the spec: the Storage Gateway
`users.update(users.c.id == id).values(**v)`: replaces every row whose
id matches with `v`, raising `IntegrityError` when the new `email`
would collide with a different row's email (the unique constraint). -/
def dbUpdate (db : DB) (id : Nat) (v : UserRow) : Except String DB :=
  if db.rows.any (fun r => r.id == id) &&
     db.rows.any (fun r => r.id != id && r.email == v.email) then
    Except.error (dupEmailMsg v.email)
  else
    Except.ok ⟨db.rows.map (fun r => if r.id == id then v else r), db.nextId⟩

/-- `users.delete().where(users.c.id == id)`: physically removes every
row whose id matches. -/
def dbDelete (db : DB) (id : Nat) : DB :=
  ⟨db.rows.filter (fun r => r.id != id), db.nextId⟩

/-- The row `dbInsert` creates for the (already encrypted) `signup`
payload: the next surrogate id, the body fields, and both timestamps
set to the insertion time. -/
def signupRow (db : DB) (now : Nat) (u : CreateUser) : UserRow :=
  ⟨db.nextId, u.first_name, u.last_name, u.email,
    fernetEncrypt fernetKey u.password, now, now⟩

/-- `signup` (`POST /users`, lines 33–58): builds `new_user` from the
body, re-binds `password` to the Fernet encryption of the supplied
password, inserts the row, re-reads by the just-inserted email and
returns the fetched row.  The insert is NOT wrapped in a try/except:
an `IntegrityError` on a duplicate email escapes the handler
unhandled. -/
def signup (db : DB) (now : Nat) (user : CreateUser) :
    Except Exn (Option UserRow) × DB :=
  let new_user : CreateUser :=
    { user with password := fernetEncrypt fernetKey user.password }
  match dbInsert db now new_user with
  | Except.error msg => (Except.error (Exn.integrityError msg), db)
  | Except.ok db1 =>
      (Except.ok (dbSelectByEmail db1 new_user.email), db1)

/-- `get_all_users` (`GET /users`, lines 70–89): one select, returning
all rows. -/
def get_all_users (db : DB) : Except Exn (List UserRow) × DB :=
  (Except.ok db.rows, db)

/-- Line 128's condition `response is None`: `response` is the module
imported by `from urllib import response` (line 4), which is never
`None`, so this is constantly false and the `NotFound` branch of
`get_user` is unreachable. -/
def urllibResponseIsNone : Bool := false

/-- `get_user` (`GET /users/{id}`, lines 100–134): selects the row by
id into `res`, but the `None` check on line 128 tests the imported
`urllib.response` module rather than `res`, so the 404 branch never
fires and the route returns `res` (possibly `None`) as-is. -/
def get_user (db : DB) (id : Nat) : Except Exn (Option UserRow) × DB :=
  let res := dbSelectById db id
  if urllibResponseIsNone then
    (Except.error (Exn.http ⟨404, "User not found"⟩), db)
  else
    (Except.ok res, db)

/-- The `except IntegrityError` classification of `update_user`
(lines 199–209): a message containing both `Duplicate entry` and
`users.email` becomes a 409 Conflict, anything else a 500. -/
def classifyIntegrityError (email msg : String) : HTTPException :=
  if strOccurs msg "Duplicate entry" && strOccurs msg "users.email" then
    ⟨409, "Email " ++ email ++ " already exist!"⟩
  else
    ⟨500, "Internal server error."⟩

/-- The dict merge of `update_user` (lines 189–194):
`updated_user = {**res, **user.dict()}` followed by re-binding
`password` to the encrypted supplied password.  `id`, `created_at` and
`updated_at` come from the existing row `res`; the four body fields
come from the request. -/
def mergeUser (res : UserRow) (u : CreateUser) : UserRow :=
  { id := res.id,
    first_name := u.first_name,
    last_name := u.last_name,
    email := u.email,
    password := fernetEncrypt fernetKey u.password,
    created_at := res.created_at,
    updated_at := res.updated_at }

/-- `update_user` (`PUT /users/{id}`, lines 145–213): select by id
(404 if absent); merge the body over the row; persist via
`users.update`, classifying an `IntegrityError` as 409/500; and only
AFTER the successful write set `updated_at` to now — on the returned
dict only, never in the store. -/
def update_user (db : DB) (now : Nat) (id : Nat) (user : CreateUser) :
    Except Exn UserRow × DB :=
  match dbSelectById db id with
  | none => (Except.error (Exn.http ⟨404, "User not found"⟩), db)
  | some res =>
      let updated_user := mergeUser res user
      match dbUpdate db id updated_user with
      | Except.error msg =>
          (Except.error (Exn.http (classifyIntegrityError user.email msg)), db)
      | Except.ok db1 =>
          (Except.ok { updated_user with updated_at := now }, db1)

/-- `delete_user` (`DELETE /users/{id}`, lines 223–262): select by id
(404 if absent), then physically delete the row and return no
content. -/
def delete_user (db : DB) (id : Nat) : Except Exn Unit × DB :=
  match dbSelectById db id with
  | none => (Except.error (Exn.http ⟨404, "User not found"⟩), db)
  | some _ => (Except.ok (), dbDelete db id)

/-- One call to the service: the five routes with their inputs (the
clock reading `now` is an input of the operations that write
timestamps). -/
inductive Op where
  | create (now : Nat) (u : CreateUser)
  | update (now : Nat) (id : Nat) (u : CreateUser)
  | del (id : Nat)
  | getOne (id : Nat)
  | getAll
deriving Repr, DecidableEq

/-- The store after one call. -/
def applyOp (db : DB) : Op → DB
  | Op.create now u => (signup db now u).2
  | Op.update now id u => (update_user db now id u).2
  | Op.del id => (delete_user db id).2
  | Op.getOne id => (get_user db id).2
  | Op.getAll => (get_all_users db).2

/-- The store reachable from the empty store through a sequence of
calls. -/
def runOps (ops : List Op) : DB :=
  ops.foldl applyOp emptyDB

/-- All stored emails are pairwise distinct. -/
def emailsUnique (db : DB) : Prop :=
  db.rows.Pairwise (fun a b => a.email ≠ b.email)

/-- All stored primary keys are pairwise distinct. -/
def idsUnique (db : DB) : Prop :=
  db.rows.Pairwise (fun a b => a.id ≠ b.id)

/-- Every stored id is below the auto-increment counter. -/
def idsBounded (db : DB) : Prop :=
  ∀ r ∈ db.rows, r.id < db.nextId

/-- Every stored password is a non-empty Fernet encryption of some
plaintext under the process key. -/
def passwordsEncrypted (db : DB) : Prop :=
  ∀ r ∈ db.rows, r.password ≠ "" ∧ ∃ pt, r.password = fernetEncrypt fernetKey pt

/-- The full store invariant. -/
def DBInv (db : DB) : Prop :=
  idsBounded db ∧ idsUnique db ∧ emailsUnique db ∧ passwordsEncrypted db

instance (db : DB) : Decidable (emailsUnique db) := by
  unfold emailsUnique; infer_instance

instance (db : DB) : Decidable (idsUnique db) := by
  unfold idsUnique; infer_instance

instance (db : DB) : Decidable (idsBounded db) := by
  unfold idsBounded; infer_instance

/-! Concrete fixtures used by the closed counterexamples and witnesses. -/

def uA : CreateUser := ⟨"Ann", "Alpha", "ann@mail.io", "pwA"⟩

def uB : CreateUser := ⟨"Bob", "Beta", "bob@mail.io", "pwB"⟩

def uC : CreateUser := ⟨"Cal", "Gamma", "cal@mail.io", "pwC"⟩

/-- The row `signup` produces from `uA` on the empty store at time 0. -/
def rowA : UserRow :=
  ⟨1, "Ann", "Alpha", "ann@mail.io", fernetEncrypt fernetKey "pwA", 0, 0⟩

/-- The row `signup` produces from `uB` as the second insert at time 1. -/
def rowB : UserRow :=
  ⟨2, "Bob", "Beta", "bob@mail.io", fernetEncrypt fernetKey "pwB", 1, 1⟩

/-- The row `signup` produces from `uC` as the third insert at time 2. -/
def rowC : UserRow :=
  ⟨3, "Cal", "Gamma", "cal@mail.io", fernetEncrypt fernetKey "pwC", 2, 2⟩

/-- A store holding only `rowA`. -/
def dbA : DB := ⟨[rowA], 2⟩

/-- A store holding `rowA` and `rowB`. -/
def dbAB : DB := ⟨[rowA, rowB], 3⟩

/-- The record `update_user dbA 10 1 uB` returns: `uB`'s fields over
`rowA`, with the response-only refreshed `updated_at = 10`. -/
def retC3 : UserRow :=
  ⟨1, "Bob", "Beta", "bob@mail.io", fernetEncrypt fernetKey "pwB", 0, 10⟩

/-- The store `update_user dbA 10 1 uB` persists: `uB`'s fields over
`rowA`, with the OLD `updated_at = 0`. -/
def dbC3 : DB :=
  ⟨[⟨1, "Bob", "Beta", "bob@mail.io", fernetEncrypt fernetKey "pwB", 0, 0⟩], 2⟩

end UserApi

namespace UserApi

/-! ### Helper lemmas about substring search -/

theorem leadsWith_self_append (n s : List Char) : leadsWith n (n ++ s) = true := by
  induction n with
  | nil => rfl
  | cons a t ih => simp [leadsWith, ih]

theorem hasRun_of_leadsWith (n l : List Char) (h : leadsWith n l = true) :
    hasRun n l = true := by
  cases l with
  | nil =>
    cases n with
    | nil => rfl
    | cons a t => simp [leadsWith] at h
  | cons c t => simp [hasRun, h]

theorem hasRun_append_right (n l1 l2 : List Char) (h : hasRun n l2 = true) :
    hasRun n (l1 ++ l2) = true := by
  induction l1 with
  | nil => simpa using h
  | cons a t ih => simp [hasRun, ih]

theorem hasRun_mid (n l1 l2 : List Char) : hasRun n (l1 ++ (n ++ l2)) = true :=
  hasRun_append_right _ _ _ (hasRun_of_leadsWith _ _ (leadsWith_self_append n l2))

theorem strOccurs_dupEmailMsg_entry (e : String) :
    strOccurs (dupEmailMsg e) "Duplicate entry" = true := by
  unfold strOccurs dupEmailMsg
  simp only [String.toList, String.data_append, List.append_assoc]
  exact hasRun_mid _ _ _

theorem strOccurs_dupEmailMsg_key (e : String) :
    strOccurs (dupEmailMsg e) "users.email" = true := by
  unfold strOccurs dupEmailMsg
  simp only [String.toList, String.data_append, List.append_assoc]
  exact hasRun_append_right _ _ _ (hasRun_append_right _ _ _
    (hasRun_append_right _ _ _ (hasRun_append_right _ _ _ (hasRun_mid _ _ _))))

theorem classifyIntegrityError_dup (e' e : String) :
    classifyIntegrityError e' (dupEmailMsg e) =
      ⟨409, "Email " ++ e' ++ " already exist!"⟩ := by
  unfold classifyIntegrityError
  rw [strOccurs_dupEmailMsg_entry, strOccurs_dupEmailMsg_key]
  rfl

/-! ### Helper lemmas about the storage operations -/

theorem find?_map_keep {α : Type} (p : α → Bool) (f : α → α)
    (hf : ∀ a, p (f a) = p a) (l : List α) :
    (l.map f).find? p = (l.find? p).map f := by
  induction l with
  | nil => rfl
  | cons a t ih =>
    by_cases hpa : p a = true
    · rw [List.map_cons, List.find?_cons_of_pos _ (by rw [hf]; exact hpa),
        List.find?_cons_of_pos _ hpa]
      rfl
    · rw [List.map_cons, List.find?_cons_of_neg _ (by rw [hf]; exact hpa),
        List.find?_cons_of_neg _ hpa]
      exact ih

theorem find?_append_left_none {α : Type} (p : α → Bool) (l1 l2 : List α)
    (h : ∀ a ∈ l1, p a = false) :
    (l1 ++ l2).find? p = l2.find? p := by
  induction l1 with
  | nil => rfl
  | cons a t ih =>
    rw [List.cons_append, List.find?_cons_of_neg]
    · exact ih (fun x hx => h x (List.mem_cons_of_mem _ hx))
    · simp [h a (List.mem_cons_self a t)]

theorem dbSelectById_some (db : DB) (id : Nat) (res : UserRow)
    (h : dbSelectById db id = some res) : res ∈ db.rows ∧ res.id = id := by
  unfold dbSelectById at h
  exact ⟨List.mem_of_find?_eq_some h, by simpa using List.find?_some h⟩

/-- Claim C10: `get_user` and `get_all_users` issue only selects: the
store after either call is the store before it. -/
theorem C10_reads_pure (db : DB) (id : Nat) :
    (get_user db id).2 = db ∧ (get_all_users db).2 = db :=
  ⟨rfl, rfl⟩

/-- Claim C2 (evidence of the code bug): `get_user` on an id with no
stored record returns the bare empty lookup (`ok none`) and raises no
error at all — the `NotFound` branch compares the imported
`urllib.response` module against `None` and is unreachable. -/
theorem C2_get_missing_not_notfound :
    get_user emptyDB 1 = (Except.ok none, emptyDB) ∧
    get_user (delete_user dbA 1).2 1 = (Except.ok none, (delete_user dbA 1).2) ∧
    ¬ ∃ e : Exn, (get_user emptyDB 1).1 = Except.error e := by
  refine ⟨by decide, by decide, ?_⟩
  rintro ⟨e, he⟩
  rw [show (get_user emptyDB 1).1 = Except.ok none from rfl] at he
  simp at he

end UserApi

namespace UserApi

theorem fernetEncrypt_ne_empty (k : Nat) (pt : String) :
    fernetEncrypt k pt ≠ "" := by
  intro h
  have hlen := congrArg String.length h
  simp [fernetEncrypt, String.length_append] at hlen
  exact absurd hlen.1.1.1 (by decide)

theorem dbUpdate_error_of (db : DB) (id : Nat) (v : UserRow)
    (h1 : db.rows.any (fun r => r.id == id) = true)
    (h2 : db.rows.any (fun r => r.id != id && r.email == v.email) = true) :
    dbUpdate db id v = Except.error (dupEmailMsg v.email) := by
  unfold dbUpdate
  rw [if_pos (by simp [h1, h2])]

theorem dbUpdate_ok_of (db : DB) (id : Nat) (v : UserRow)
    (h2 : db.rows.any (fun r => r.id != id && r.email == v.email) = false) :
    dbUpdate db id v =
      Except.ok ⟨db.rows.map (fun r => if r.id == id then v else r), db.nextId⟩ := by
  unfold dbUpdate
  rw [if_neg]
  rw [h2, Bool.and_false]
  simp

theorem dbUpdate_ok_cases (db : DB) (id : Nat) (v : UserRow) (db1 : DB)
    (hex : db.rows.any (fun r => r.id == id) = true)
    (h : dbUpdate db id v = Except.ok db1) :
    db1 = ⟨db.rows.map (fun r => if r.id == id then v else r), db.nextId⟩ ∧
    ∀ r ∈ db.rows, r.id ≠ id → r.email ≠ v.email := by
  by_cases hcond :
      (db.rows.any (fun r => r.id == id) &&
        db.rows.any (fun r => r.id != id && r.email == v.email)) = true
  · rw [dbUpdate_error_of db id v hex (by simpa [hex] using hcond)] at h
    simp at h
  · have hb : db.rows.any (fun r => r.id != id && r.email == v.email) = false := by
      rcases Bool.and_eq_false_iff.1 (Bool.not_eq_true _ |>.mp hcond) with ha | hb
      · rw [hex] at ha; cases ha
      · exact hb
    rw [dbUpdate_ok_of db id v hb] at h
    refine ⟨(Except.ok.inj h).symm, ?_⟩
    intro r hr hid hemail
    have hfalse := List.any_eq_false.1 hb r hr
    apply hfalse
    simp [bne_iff_ne, hid, hemail]

theorem update_user_eq_ok (db : DB) (now id : Nat) (u : CreateUser) (res : UserRow)
    (hsel : dbSelectById db id = some res)
    (h2 : db.rows.any (fun r => r.id != id && r.email == (mergeUser res u).email) = false) :
    update_user db now id u =
      (Except.ok { mergeUser res u with updated_at := now },
       ⟨db.rows.map (fun r => if r.id == id then mergeUser res u else r), db.nextId⟩) := by
  simp [update_user, hsel, dbUpdate_ok_of db id (mergeUser res u) h2]

theorem update_user_eq_conflict (db : DB) (now id : Nat) (u : CreateUser) (res : UserRow)
    (hsel : dbSelectById db id = some res)
    (h2 : db.rows.any (fun r => r.id != id && r.email == (mergeUser res u).email) = true) :
    update_user db now id u =
      (Except.error (Exn.http ⟨409, "Email " ++ u.email ++ " already exist!"⟩), db) := by
  have hres := dbSelectById_some db id res hsel
  have hex : db.rows.any (fun r => r.id == id) = true :=
    List.any_eq_true.2 ⟨res, hres.1, by simp [hres.2]⟩
  have herr := dbUpdate_error_of db id (mergeUser res u) hex h2
  simp [update_user, hsel, herr, classifyIntegrityError_dup]

theorem update_user_ok_inv (db : DB) (now id : Nat) (u : CreateUser)
    (res ret : UserRow) (db1 : DB)
    (hsel : dbSelectById db id = some res)
    (hok : update_user db now id u = (Except.ok ret, db1)) :
    ret = { mergeUser res u with updated_at := now } ∧
    db1 = ⟨db.rows.map (fun r => if r.id == id then mergeUser res u else r), db.nextId⟩ := by
  by_cases h2 :
      db.rows.any (fun r => r.id != id && r.email == (mergeUser res u).email) = true
  · rw [update_user_eq_conflict db now id u res hsel h2] at hok
    simp at hok
  · have h2f := Bool.not_eq_true _ |>.mp h2
    rw [update_user_eq_ok db now id u res hsel h2f] at hok
    injection hok with hl hr
    exact ⟨(Except.ok.inj hl).symm, hr.symm⟩

theorem dbSelectById_map_replace (db : DB) (id : Nat) (v res : UserRow)
    (hv : v.id = id) (hsel : dbSelectById db id = some res) :
    dbSelectById ⟨db.rows.map (fun r => if r.id == id then v else r), db.nextId⟩ id =
      some v := by
  have hres := dbSelectById_some db id res hsel
  unfold dbSelectById at hsel ⊢
  rw [find?_map_keep _ _ ?hf, hsel]
  case hf =>
    intro a
    by_cases ha : a.id = id
    · simp [ha, hv]
    · simp [ha]
  simp [hres.2]

end UserApi

namespace UserApi

/-! ### Forward characterizations of `signup` -/

theorem signup_eq_dup (db : DB) (now : Nat) (u : CreateUser)
    (hdup : db.rows.any (fun r => r.email == u.email) = true) :
    signup db now u = (Except.error (Exn.integrityError (dupEmailMsg u.email)), db) := by
  simp [signup, dbInsert, hdup]

theorem signup_eq_fresh (db : DB) (now : Nat) (u : CreateUser)
    (hfresh : db.rows.any (fun r => r.email == u.email) = false) :
    signup db now u =
      (Except.ok (some (signupRow db now u)),
       ⟨db.rows ++ [signupRow db now u], db.nextId + 1⟩) := by
  have hall := List.any_eq_false.1 hfresh
  have hsel : dbSelectByEmail ⟨db.rows ++ [signupRow db now u], db.nextId + 1⟩ u.email =
      some (signupRow db now u) := by
    unfold dbSelectByEmail
    rw [find?_append_left_none _ _ _ ?hpre]
    case hpre =>
      intro a ha
      have := hall a ha
      simpa using this
    rw [List.find?_cons_of_pos]
    simp [signupRow]
  simp [signup, dbInsert, hfresh, signupRow] at hsel ⊢
  rw [hsel]

/-! ### Preservation of the store invariant -/

theorem DBInv_empty : DBInv emptyDB := by
  refine ⟨?_, ?_, ?_, ?_⟩ <;>
    simp [idsBounded, idsUnique, emailsUnique, passwordsEncrypted, emptyDB]

theorem DBInv_dbInsert (db : DB) (now : Nat) (u : CreateUser) (db1 : DB)
    (hinv : DBInv db)
    (hpw : u.password ≠ "" ∧ ∃ pt, u.password = fernetEncrypt fernetKey pt)
    (h : dbInsert db now u = Except.ok db1) :
    DBInv db1 := by
  unfold dbInsert at h
  by_cases hany : db.rows.any (fun r => r.email == u.email) = true
  · rw [if_pos hany] at h
    simp at h
  · have hanyf := Bool.not_eq_true _ |>.mp hany
    rw [if_neg hany] at h
    cases Except.ok.inj h
    refine ⟨?_, ?_, ?_, ?_⟩
    · intro r hr
      rcases List.mem_append.1 hr with h1 | h2
      · exact Nat.lt_succ_of_lt (hinv.1 r h1)
      · rw [List.mem_singleton.1 h2]
        exact Nat.lt_succ_self _
    · refine List.pairwise_append.2 ⟨hinv.2.1, by simp, ?_⟩
      intro a ha b hb
      rw [List.mem_singleton.1 hb]
      exact Nat.ne_of_lt (hinv.1 a ha)
    · refine List.pairwise_append.2 ⟨hinv.2.2.1, by simp, ?_⟩
      intro a ha b hb
      rw [List.mem_singleton.1 hb]
      have := List.any_eq_false.1 hanyf a ha
      simpa using this
    · intro r hr
      rcases List.mem_append.1 hr with h1 | h2
      · exact hinv.2.2.2 r h1
      · rw [List.mem_singleton.1 h2]
        exact hpw

theorem pairwise_email_map_replace (id : Nat) (v : UserRow) :
    ∀ l : List UserRow,
      l.Pairwise (fun a b => a.id ≠ b.id) →
      l.Pairwise (fun a b => a.email ≠ b.email) →
      (∀ r ∈ l, r.id ≠ id → r.email ≠ v.email) →
      (l.map (fun r => if r.id == id then v else r)).Pairwise
        (fun a b => a.email ≠ b.email) := by
  intro l
  induction l with
  | nil => intro _ _ _; simp
  | cons a t ih =>
    intro hids hem hok
    obtain ⟨hida, hidt⟩ := List.pairwise_cons.1 hids
    obtain ⟨hema, hemt⟩ := List.pairwise_cons.1 hem
    rw [List.map_cons, List.pairwise_cons]
    constructor
    · intro b' hb'
      obtain ⟨b, hb, rfl⟩ := List.mem_map.1 hb'
      by_cases ha : a.id = id
      · have hbid : b.id ≠ id := by
          rw [← ha]; exact fun hh => hida b hb hh.symm
        have hbemail : b.email ≠ v.email := hok b (List.mem_cons_of_mem _ hb) hbid
        rw [if_pos (by simp [ha]), if_neg (by simp [hbid])]
        exact fun hh => hbemail hh.symm
      · rw [if_neg (by simp [ha])]
        by_cases hbid : b.id = id
        · rw [if_pos (by simp [hbid])]
          exact hok a (List.mem_cons_self a t) ha
        · rw [if_neg (by simp [hbid])]
          exact hema b hb
    · exact ih hidt hemt (fun r hr => hok r (List.mem_cons_of_mem _ hr))

theorem DBInv_dbUpdate_mapped (db : DB) (id : Nat) (v : UserRow)
    (hinv : DBInv db) (hv : v.id = id)
    (hpw : v.password ≠ "" ∧ ∃ pt, v.password = fernetEncrypt fernetKey pt)
    (hok : ∀ r ∈ db.rows, r.id ≠ id → r.email ≠ v.email) :
    DBInv ⟨db.rows.map (fun r => if r.id == id then v else r), db.nextId⟩ := by
  have hid : ∀ r : UserRow, (if r.id == id then v else r).id = r.id := by
    intro r
    by_cases hr : r.id = id
    · rw [if_pos (by simp [hr]), hv, hr]
    · rw [if_neg (by simp [hr])]
  refine ⟨?_, ?_, ?_, ?_⟩
  · intro r' hr'
    obtain ⟨a, ha, rfl⟩ := List.mem_map.1 hr'
    rw [hid]
    exact hinv.1 a ha
  · refine List.pairwise_map.2 ?_
    refine List.Pairwise.imp ?_ hinv.2.1
    intro a b h
    rw [hid, hid]
    exact h
  · exact pairwise_email_map_replace id v db.rows hinv.2.1 hinv.2.2.1 hok
  · intro r' hr'
    obtain ⟨a, ha, rfl⟩ := List.mem_map.1 hr'
    by_cases haid : a.id = id
    · rw [if_pos (by simp [haid])]
      exact hpw
    · rw [if_neg (by simp [haid])]
      exact hinv.2.2.2 a ha

theorem DBInv_dbDelete (db : DB) (id : Nat) (hinv : DBInv db) :
    DBInv (dbDelete db id) := by
  refine ⟨?_, ?_, ?_, ?_⟩
  · intro r hr
    exact hinv.1 r (List.mem_filter.1 hr).1
  · exact List.Pairwise.sublist (List.filter_sublist _) hinv.2.1
  · exact List.Pairwise.sublist (List.filter_sublist _) hinv.2.2.1
  · intro r hr
    exact hinv.2.2.2 r (List.mem_filter.1 hr).1

theorem DBInv_applyOp (db : DB) (op : Op) (hinv : DBInv db) :
    DBInv (applyOp db op) := by
  cases op with
  | getAll => exact hinv
  | getOne id => exact hinv
  | del id =>
    cases hsel : dbSelectById db id with
    | none => simpa [applyOp, delete_user, hsel] using hinv
    | some r =>
      rw [show applyOp db (Op.del id) = dbDelete db id from by
        simp [applyOp, delete_user, hsel]]
      exact DBInv_dbDelete db id hinv
  | create now u =>
    cases hins : dbInsert db now { u with password := fernetEncrypt fernetKey u.password } with
    | error m => simpa [applyOp, signup, hins] using hinv
    | ok db1 =>
      rw [show applyOp db (Op.create now u) = db1 from by simp [applyOp, signup, hins]]
      exact DBInv_dbInsert db now _ db1 hinv
        ⟨fernetEncrypt_ne_empty _ _, ⟨u.password, rfl⟩⟩ hins
  | update now id u =>
    cases hsel : dbSelectById db id with
    | none => simpa [applyOp, update_user, hsel] using hinv
    | some res =>
      by_cases h2 :
          db.rows.any (fun r => r.id != id && r.email == (mergeUser res u).email) = true
      · rw [show applyOp db (Op.update now id u) = db from by
          simp [applyOp, update_user_eq_conflict db now id u res hsel h2]]
        exact hinv
      · have h2f := Bool.not_eq_true _ |>.mp h2
        rw [show applyOp db (Op.update now id u) =
            ⟨db.rows.map (fun r => if r.id == id then mergeUser res u else r),
              db.nextId⟩ from by
          simp [applyOp, update_user_eq_ok db now id u res hsel h2f]]
        have hres := dbSelectById_some db id res hsel
        refine DBInv_dbUpdate_mapped db id (mergeUser res u) hinv hres.2 ?_ ?_
        · exact ⟨fernetEncrypt_ne_empty _ _, ⟨u.password, rfl⟩⟩
        · intro r hr hidr hemail
          have := List.any_eq_false.1 h2f r hr
          apply this
          simp [bne_iff_ne, hidr, hemail]

theorem DBInv_foldl (ops : List Op) :
    ∀ db : DB, DBInv db → DBInv (ops.foldl applyOp db) := by
  induction ops with
  | nil => intro db h; exact h
  | cons op t ih => intro db h; exact ih _ (DBInv_applyOp db op h)

theorem DBInv_runOps (ops : List Op) : DBInv (runOps ops) :=
  DBInv_foldl ops emptyDB DBInv_empty

end UserApi

namespace UserApi

/-! ### The claims -/

/-- Claim C8: in every store state reachable through the service's
operations, the stored emails are pairwise distinct and every stored
password is a non-empty Fernet encryption of some plaintext — both
`signup` and `update_user` pass the supplied password through the
cipher before any write. -/
theorem C8_store_invariant (ops : List Op) :
    emailsUnique (runOps ops) ∧ passwordsEncrypted (runOps ops) :=
  ⟨(DBInv_runOps ops).2.2.1, (DBInv_runOps ops).2.2.2⟩

/-- Claim C1 (amended): creating a user whose email is already stored
does fail and leaves the store unchanged — but with the storage
gateway's `IntegrityError` escaping `signup` unhandled, never as a
409 Conflict `HTTPException`, since `signup` has no try/except. -/
theorem C1_create_duplicate_unhandled (db : DB) (now : Nat) (u : CreateUser)
    (hdup : ∃ r ∈ db.rows, r.email = u.email) :
    signup db now u = (Except.error (Exn.integrityError (dupEmailMsg u.email)), db) ∧
    ∀ h : HTTPException, (signup db now u).1 ≠ Except.error (Exn.http h) := by
  have hany : db.rows.any (fun r => r.email == u.email) = true := by
    obtain ⟨r, hr, he⟩ := hdup
    exact List.any_eq_true.2 ⟨r, hr, by simp [he]⟩
  have heq := signup_eq_dup db now u hany
  refine ⟨heq, ?_⟩
  intro h hcontra
  rw [heq] at hcontra
  simp at hcontra

/-- Claim C1 (counterexample to the claim as stated): creating `uA`
twice from the empty store: the first call succeeds, but the second
does not fail with a Conflict `HTTPException` — it is the raw
unhandled `IntegrityError`. -/
theorem C1_counterexample :
    (signup emptyDB 0 uA).1 = Except.ok (some rowA) ∧
    (signup (signup emptyDB 0 uA).2 1 uA).1 =
      Except.error (Exn.integrityError (dupEmailMsg "ann@mail.io")) ∧
    ¬ ∃ h : HTTPException,
        (signup (signup emptyDB 0 uA).2 1 uA).1 = Except.error (Exn.http h) := by
  refine ⟨by decide, by decide, ?_⟩
  rintro ⟨h, hcontra⟩
  rw [show (signup (signup emptyDB 0 uA).2 1 uA).1 =
      Except.error (Exn.integrityError (dupEmailMsg "ann@mail.io")) from by decide] at hcontra
  simp at hcontra

/-- Witness for C1: the amended theorem applied to the concrete
one-row store `dbA` and the colliding input `uA`. -/
theorem C1_witness :
    (∃ r ∈ dbA.rows, r.email = uA.email) ∧
    (signup dbA 5 uA = (Except.error (Exn.integrityError (dupEmailMsg uA.email)), dbA) ∧
     ∀ h : HTTPException, (signup dbA 5 uA).1 ≠ Except.error (Exn.http h)) :=
  ⟨by decide, C1_create_duplicate_unhandled dbA 5 uA (by decide)⟩

/-- Claim C6: creating a user whose email is fresh succeeds, appends
exactly one row, and the returned row carries the input `email`,
`first_name` and `last_name`; `password` is not among the keys of the
serialized public record. -/
theorem C6_create_fresh (db : DB) (now : Nat) (u : CreateUser)
    (hfresh : ∀ r ∈ db.rows, r.email ≠ u.email) :
    ∃ row : UserRow,
      signup db now u = (Except.ok (some row), ⟨db.rows ++ [row], db.nextId + 1⟩) ∧
      row.email = u.email ∧ row.first_name = u.first_name ∧
      row.last_name = u.last_name ∧
      "password" ∉ ((toUserOut row).toPairs.map Prod.fst) := by
  have hany : db.rows.any (fun r => r.email == u.email) = false :=
    List.any_eq_false.2 (fun r hr => by simpa using hfresh r hr)
  refine ⟨signupRow db now u, signup_eq_fresh db now u hany, rfl, rfl, rfl, ?_⟩
  simp [UserOut.toPairs, toUserOut]

/-- Witness for C6: the theorem applied to the empty store and `uA`. -/
theorem C6_witness :
    (∀ r ∈ emptyDB.rows, r.email ≠ uA.email) ∧
    ∃ row : UserRow,
      signup emptyDB 0 uA =
        (Except.ok (some row), ⟨emptyDB.rows ++ [row], emptyDB.nextId + 1⟩) ∧
      row.email = uA.email ∧ row.first_name = uA.first_name ∧
      row.last_name = uA.last_name ∧
      "password" ∉ ((toUserOut row).toPairs.map Prod.fst) :=
  ⟨by decide, C6_create_fresh emptyDB 0 uA (by decide)⟩

/-- Claim C3 (amended): a successful `update_user` returns a record
whose `updated_at` equals the current time — hence ≥ the previous
value whenever the clock has not gone backwards — but the row
persisted in the store keeps the PREVIOUS `updated_at`: the refresh
happens after the write, on the response dict only. -/
theorem C3_update_refreshes_response_only (db : DB) (now id : Nat)
    (u : CreateUser) (res ret : UserRow) (db1 : DB)
    (hsel : dbSelectById db id = some res)
    (hmono : res.updated_at ≤ now)
    (hok : update_user db now id u = (Except.ok ret, db1)) :
    ret.updated_at = now ∧ res.updated_at ≤ ret.updated_at ∧
    dbSelectById db1 id = some (mergeUser res u) ∧
    (mergeUser res u).updated_at = res.updated_at := by
  obtain ⟨hret, hdb1⟩ := update_user_ok_inv db now id u res ret db1 hsel hok
  subst hret
  subst hdb1
  exact ⟨rfl, hmono,
    dbSelectById_map_replace db id (mergeUser res u) res
      (dbSelectById_some db id res hsel).2 hsel, rfl⟩

/-- Claim C3 (counterexample to the claim as stated): updating `rowA`
(stored `updated_at = 0`) at time 10 succeeds and returns
`updated_at = 10`, yet the persisted row still carries
`updated_at = 0 ≠ 10` — the refreshed timestamp is not persisted. -/
theorem C3_counterexample :
    (update_user dbA 10 1 uB).1 = Except.ok retC3 ∧ retC3.updated_at = 10 ∧
    dbSelectById (update_user dbA 10 1 uB).2 1 =
      some ⟨1, "Bob", "Beta", "bob@mail.io", fernetEncrypt fernetKey "pwB", 0, 0⟩ ∧
    (0 : Nat) ≠ 10 := by
  decide

/-- Witness for C3: the amended theorem applied to `dbA`, time 10 and
body `uB`. -/
theorem C3_witness :
    dbSelectById dbA 1 = some rowA ∧ rowA.updated_at ≤ 10 ∧
    update_user dbA 10 1 uB = (Except.ok retC3, dbC3) ∧
    (retC3.updated_at = 10 ∧ rowA.updated_at ≤ retC3.updated_at ∧
     dbSelectById dbC3 1 = some (mergeUser rowA uB) ∧
     (mergeUser rowA uB).updated_at = rowA.updated_at) :=
  ⟨by decide, by decide, by decide,
    C3_update_refreshes_response_only dbA 10 1 uB rowA retC3 dbC3
      (by decide) (by decide) (by decide)⟩

/-- Claim C5: a successful `update_user` preserves `id` and
`created_at`, both in the returned record and in the persisted row;
the persisted row takes `first_name`, `last_name`, `email` and the
encrypted `password` from the input and keeps everything else. -/
theorem C5_update_preserves_identity (db : DB) (now id : Nat)
    (u : CreateUser) (res ret : UserRow) (db1 : DB)
    (hsel : dbSelectById db id = some res)
    (hok : update_user db now id u = (Except.ok ret, db1)) :
    ret.id = res.id ∧ ret.created_at = res.created_at ∧
    ∃ s : UserRow, dbSelectById db1 id = some s ∧
      s.id = res.id ∧ s.created_at = res.created_at ∧
      s.first_name = u.first_name ∧ s.last_name = u.last_name ∧
      s.email = u.email ∧ s.password = fernetEncrypt fernetKey u.password ∧
      s.updated_at = res.updated_at := by
  obtain ⟨hret, hdb1⟩ := update_user_ok_inv db now id u res ret db1 hsel hok
  subst hret
  subst hdb1
  exact ⟨rfl, rfl, mergeUser res u,
    dbSelectById_map_replace db id (mergeUser res u) res
      (dbSelectById_some db id res hsel).2 hsel,
    rfl, rfl, rfl, rfl, rfl, rfl, rfl⟩

/-- Witness for C5: the theorem applied to `dbA`, time 10 and body `uB`. -/
theorem C5_witness :
    dbSelectById dbA 1 = some rowA ∧
    update_user dbA 10 1 uB = (Except.ok retC3, dbC3) ∧
    (retC3.id = rowA.id ∧ retC3.created_at = rowA.created_at ∧
     ∃ s : UserRow, dbSelectById dbC3 1 = some s ∧
       s.id = rowA.id ∧ s.created_at = rowA.created_at ∧
       s.first_name = uB.first_name ∧ s.last_name = uB.last_name ∧
       s.email = uB.email ∧ s.password = fernetEncrypt fernetKey uB.password ∧
       s.updated_at = rowA.updated_at) :=
  ⟨by decide, by decide,
    C5_update_preserves_identity dbA 10 1 uB rowA retC3 dbC3 (by decide) (by decide)⟩

end UserApi

namespace UserApi

/-- Claim C4: on an existing record (in a store with unique emails),
updating to an email owned by a different record fails with the 409
Conflict carrying the duplicate-email message; updating to the
record's own current email succeeds; and an `IntegrityError` message
missing either duplicate-email marker is classified as the 500
internal error. -/
theorem C4_update_email_conflict (db : DB) (now id : Nat) (u : CreateUser)
    (res : UserRow)
    (hsel : dbSelectById db id = some res)
    (hem : emailsUnique db) :
    ((∃ r ∈ db.rows, r.id ≠ id ∧ r.email = u.email) →
        update_user db now id u =
          (Except.error (Exn.http ⟨409, "Email " ++ u.email ++ " already exist!"⟩), db)) ∧
    (u.email = res.email →
        update_user db now id u =
          (Except.ok { mergeUser res u with updated_at := now },
           ⟨db.rows.map (fun r => if r.id == id then mergeUser res u else r),
             db.nextId⟩)) ∧
    (∀ msg : String,
        strOccurs msg "Duplicate entry" = false ∨ strOccurs msg "users.email" = false →
        classifyIntegrityError u.email msg = ⟨500, "Internal server error."⟩) := by
  have hres := dbSelectById_some db id res hsel
  refine ⟨?_, ?_, ?_⟩
  · rintro ⟨r, hr, hid, he⟩
    have h2 : db.rows.any (fun r => r.id != id && r.email == (mergeUser res u).email) = true :=
      List.any_eq_true.2 ⟨r, hr, by simp [bne_iff_ne, hid, he, mergeUser]⟩
    exact update_user_eq_conflict db now id u res hsel h2
  · intro hown
    have h2 : db.rows.any (fun r => r.id != id && r.email == (mergeUser res u).email) = false := by
      refine List.any_eq_false.2 ?_
      intro r hr hcontra
      simp [bne_iff_ne, mergeUser] at hcontra
      have hrne : r ≠ res := fun hh => hcontra.1 (hh ▸ hres.2)
      have hed : r.email ≠ res.email :=
        List.Pairwise.forall (R := fun a b : UserRow => a.email ≠ b.email)
          (fun _ _ hh he2 => hh he2.symm) hem hr hres.1 hrne
      exact hed (hcontra.2.trans hown)
    exact update_user_eq_ok db now id u res hsel h2
  · intro msg hmsg
    unfold classifyIntegrityError
    rcases hmsg with h | h <;> rw [if_neg (by simp [h])]

/-- Witness for C4: the theorem applied to the two-row store `dbAB`,
target id 1, and body `uB` (whose email belongs to the other row). -/
theorem C4_witness :
    dbSelectById dbAB 1 = some rowA ∧ emailsUnique dbAB ∧
    (((∃ r ∈ dbAB.rows, r.id ≠ 1 ∧ r.email = uB.email) →
        update_user dbAB 7 1 uB =
          (Except.error (Exn.http ⟨409, "Email " ++ uB.email ++ " already exist!"⟩), dbAB)) ∧
     (uB.email = rowA.email →
        update_user dbAB 7 1 uB =
          (Except.ok { mergeUser rowA uB with updated_at := 7 },
           ⟨dbAB.rows.map (fun r => if r.id == 1 then mergeUser rowA uB else r),
             dbAB.nextId⟩)) ∧
     (∀ msg : String,
        strOccurs msg "Duplicate entry" = false ∨ strOccurs msg "users.email" = false →
        classifyIntegrityError uB.email msg = ⟨500, "Internal server error."⟩)) :=
  ⟨by decide, by decide, C4_update_email_conflict dbAB 7 1 uB rowA (by decide) (by decide)⟩

/-- Claim C7 (amended): deleting an existing id removes exactly the
rows with that id — afterwards the lookup by that id is empty (and
`get_user` returns that empty lookup as `ok none` rather than raising
`NotFound`, whose branch is unreachable) while every other row
survives; deleting a missing id fails `NotFound` and leaves the store
untouched; and listing after creating A, B, C and deleting B returns
exactly A and C. -/
theorem C7_delete_removes_record (db : DB) (id : Nat) :
    (∀ res : UserRow, dbSelectById db id = some res →
       delete_user db id =
         (Except.ok (), ⟨db.rows.filter (fun r => r.id != id), db.nextId⟩) ∧
       dbSelectById (delete_user db id).2 id = none ∧
       (get_user (delete_user db id).2 id).1 = Except.ok none ∧
       (∀ r ∈ db.rows, r.id ≠ id → r ∈ (delete_user db id).2.rows) ∧
       (∀ r ∈ (delete_user db id).2.rows, r ∈ db.rows ∧ r.id ≠ id)) ∧
    (dbSelectById db id = none →
       delete_user db id = (Except.error (Exn.http ⟨404, "User not found"⟩), db)) ∧
    (get_all_users (runOps [Op.create 0 uA, Op.create 1 uB, Op.create 2 uC,
        Op.del 2])).1 = Except.ok [rowA, rowC] := by
  refine ⟨?_, ?_, by decide⟩
  · intro res hsel
    have hdel : delete_user db id =
        (Except.ok (), ⟨db.rows.filter (fun r => r.id != id), db.nextId⟩) := by
      simp [delete_user, hsel, dbDelete]
    have hnone : dbSelectById (delete_user db id).2 id = none := by
      rw [hdel]
      unfold dbSelectById
      rw [List.find?_eq_none]
      intro x hx
      have hx2 := (List.mem_filter.1 hx).2
      simpa [bne_iff_ne] using hx2
    refine ⟨hdel, hnone, ?_, ?_, ?_⟩
    · simp [get_user, urllibResponseIsNone, hnone]
    · intro r hr hid
      rw [hdel]
      exact List.mem_filter.2 ⟨hr, by simp [bne_iff_ne, hid]⟩
    · intro r hr
      rw [hdel] at hr
      have hm := List.mem_filter.1 hr
      exact ⟨hm.1, by simpa [bne_iff_ne] using hm.2⟩
  · intro hsel
    simp [delete_user, hsel]

/-- Claim C7 (counterexample to the claim as stated): after deleting
the only record, the subsequent `get_user` does not fail `NotFound` —
it raises nothing and returns the empty lookup. -/
theorem C7_counterexample :
    (delete_user dbA 1).1 = Except.ok () ∧
    (get_user (delete_user dbA 1).2 1).1 = Except.ok none ∧
    ¬ ∃ e : Exn, (get_user (delete_user dbA 1).2 1).1 = Except.error e := by
  refine ⟨by decide, by decide, ?_⟩
  rintro ⟨e, he⟩
  rw [show (get_user (delete_user dbA 1).2 1).1 = Except.ok none from by decide] at he
  simp at he

/-- Witness for C7: the amended theorem applied to the one-row store
`dbA` and its id 1. -/
theorem C7_witness :
    dbSelectById dbA 1 = some rowA ∧
    (delete_user dbA 1 =
       (Except.ok (), ⟨dbA.rows.filter (fun r => r.id != 1), dbA.nextId⟩) ∧
     dbSelectById (delete_user dbA 1).2 1 = none ∧
     (get_user (delete_user dbA 1).2 1).1 = Except.ok none ∧
     (∀ r ∈ dbA.rows, r.id ≠ 1 → r ∈ (delete_user dbA 1).2.rows) ∧
     (∀ r ∈ (delete_user dbA 1).2.rows, r ∈ dbA.rows ∧ r.id ≠ 1)) :=
  ⟨by decide, (C7_delete_removes_record dbA 1).1 rowA (by decide)⟩

end UserApi
